import Mathlib

/-!
Shallow embedding of the contribution-graph and statistics core of the
`gittui` repository, together with proofs about the embedded code.

Modelling conventions:
* Civil dates (Go `time.Time` truncated to a day with
  `time.Date(y, m, d, 0,0,0,0, time.UTC)`) are integers counting days, with
  day 0 chosen to be 1970-01-04, a Sunday.  Hence Go's
  `int(t.Weekday())` (0 = Sunday .. 6 = Saturday) is `d % 7` (`Int.emod`).
* Activity timestamps are integers counting hours, so Go's
  `t.Hour()` is `t % 24` (`Int.emod`) and `t.Before(u)` is `t < u`.
* `time.Now()` is an explicit parameter (`today` for day precision,
  `now` for hour precision).
* Go `int` is `Int`; Go integer division `/` truncates toward zero and is
  `Int.tdiv`; Go `%` on the non-negative operands appearing here is
  `Int.emod`.
* Terminal styling done by the external lipgloss library (colors, bold,
  borders, centering) wraps text without changing it; styled fragments are
  modelled as the underlying plain text.  `lipgloss.JoinVertical` joins its
  arguments with newlines.
-/

namespace GitTUI

/-- One day's contribution count (`Contribution` in the source). -/
structure Contribution where
  Date : Int
  Count : Int
deriving DecidableEq, Repr

/-- One activity event; only the fields used by the analyzer are embedded
(the source's `Type` field — a Lean keyword — is `EventType` here, and
`Timestamp`). -/
structure Activity where
  EventType : String
  Timestamp : Int
deriving DecidableEq, Repr

/-! Constants of the graph component (source block `const (...)`). -/

def weeksToDisplay : Int := 52
def daysPerWeek : Int := 7
def cellWidth : Int := 2
def dayLabelWidth : Int := 4
def minTerminalWidth : Int := dayLabelWidth + weeksToDisplay * cellWidth
def blockChar : String := "▄"

/-- A contribution graph (`Graph` in the source). -/
structure Graph where
  contributions : List Contribution
  title : String
  showLegend : Bool

/-- `NewGraph` from the source. -/
def NewGraph (contributions : List Contribution) : Graph :=
  { contributions := contributions
    title := "Contribution Activity"
    showLegend := true }

/-- Weekday of a day number, 0 = Sunday .. 6 = Saturday (Go `t.Weekday()`
with the Sunday epoch of the modelling conventions). -/
def weekday (d : Int) : Int := d % 7

/-- Result of the source loop `for startDate.Weekday() != time.Sunday
{ startDate = startDate.AddDate(0, 0, -1) }`: stepping back one day at a
time until Sunday lands on `d - d % 7`. -/
def sundayOnOrBefore (d : Int) : Int := d - d % 7

/-- The `startDate` computed inside `Graph.buildGrid` (and
`renderMonthLabels`): the Sunday on or before the first contribution's
date; `0` is the irrelevant value for the empty list, whose branch returns
before computing it. -/
def gridAnchor : List Contribution → Int
  | [] => 0
  | c :: _ => sundayOnOrBefore c.Date

/-- Functional update of one grid cell (`grid[dayOfWeek][week] = count`). -/
def gridWrite (g : Int → Int → Int) (dayOfWeek week val : Int) :
    Int → Int → Int :=
  fun d w => if d = dayOfWeek ∧ w = week then val else g d w

/-- Body of the fill loop of `Graph.buildGrid` for one contribution.
`daysSinceStart` is Go `int(contrib.Date.Sub(startDate).Hours() / 24)`
(exact day difference, truncated toward zero as is `week`). -/
def gridStep (startDate : Int) (g : Int → Int → Int) (c : Contribution) :
    Int → Int → Int :=
  let daysSinceStart := c.Date - startDate
  let week := daysSinceStart.tdiv 7
  let dayOfWeek := weekday c.Date
  if 0 ≤ week ∧ week < weeksToDisplay ∧ 0 ≤ dayOfWeek ∧ dayOfWeek < daysPerWeek
  then gridWrite g dayOfWeek week c.Count
  else g

/-- `Graph.buildGrid` from the source: the 7×52 grid as a function of
(dayOfWeek, week), all cells 0 initially, filled left to right. -/
def Graph.buildGrid (g : Graph) : Int → Int → Int :=
  match g.contributions with
  | [] => fun _ _ => 0
  | c :: _ =>
    let startDate := sundayOnOrBefore c.Date
    g.contributions.foldl (gridStep startDate) (fun _ _ => 0)

/-- `getContributionLevel` from the source. -/
def getContributionLevel (count : Int) : Int :=
  if count = 0 then 0
  else if count ≤ 3 then 1
  else if count ≤ 6 then 2
  else if count ≤ 9 then 3
  else 4

/-- Colors of the five levels (`getColorForLevel`'s backing slice). -/
def levelColors : List String :=
  ["#161b22", "#0e4429", "#006d32", "#26a641", "#39d353"]

/-- `getColorForLevel` from the source. -/
def getColorForLevel (level : Int) : String :=
  if 0 ≤ level ∧ level < (levelColors.length : Int) then
    levelColors.getD level.toNat "#161b22"
  else "#161b22"

/-- `renderCell` from the source: one colored block glyph plus a space
(the color, applied by lipgloss as ANSI styling, wraps the glyph). -/
def renderCell (count : Int) : String :=
  let level := getContributionLevel count
  let _color := getColorForLevel level
  blockChar ++ " "

/-- Month (1..12) of a day number in the proleptic Gregorian calendar
(Go `t.Month()`), using the standard days-to-civil conversion; day 0 is
1970-01-04 per the modelling conventions, so `d + 3` days have elapsed
since 1970-01-01 and `d + 3 + 719468` since 0000-03-01. -/
def monthOfDay (d : Int) : Int :=
  let z := d + 3 + 719468
  let era := z.fdiv 146097
  let doe := z - era * 146097
  let yoe := (doe - doe.fdiv 1460 + doe.fdiv 36524 - doe.fdiv 146096).fdiv 365
  let doy := doe - (365 * yoe + yoe.fdiv 4 - yoe.fdiv 100)
  let mp := (5 * doy + 2).fdiv 153
  if mp < 10 then mp + 3 else mp - 9

/-- The `months` slice of `renderMonthLabels`. -/
def monthNames : List String :=
  ["Jan", "Feb", "Mar", "Apr", "May", "Jun",
   "Jul", "Aug", "Sep", "Oct", "Nov", "Dec"]

/-- The stamping loop `for i, ch := range monthName { if pos+i <
len(labelChars) { labelChars[pos+i] = ch } }`: write `name` into `chars`
starting at index `pos`, ignoring writes past the end. -/
def stampAt : List Char → Nat → List Char → List Char
  | [], _, _ => []
  | cs, _, [] => cs
  | _ :: cs, 0, n :: ns => n :: stampAt cs 0 ns
  | c :: cs, Nat.succ p, ns => c :: stampAt cs p ns

/-- One week column of the month-label loop: stamp the month name when the
month changes; state is (label characters, currentMonth). -/
def monthLabelStep (startDate : Int) (st : List Char × Int) (week : Nat) :
    List Char × Int :=
  let weekStart := startDate + 7 * (week : Int)
  let month := monthOfDay weekStart - 1
  if month ≠ st.2 then
    (stampAt st.1 (week * cellWidth.toNat)
      (monthNames.getD month.toNat "").toList, month)
  else st

/-- `renderMonthLabels` from the source (label styling external). -/
def Graph.renderMonthLabels (g : Graph) : String :=
  match g.contributions with
  | [] => ""
  | c :: _ =>
    let startDate := sundayOnOrBefore c.Date
    let labelChars := List.replicate (weeksToDisplay * cellWidth).toNat ' '
    let chars :=
      ((List.range weeksToDisplay.toNat).foldl
        (monthLabelStep startDate) (labelChars, -1)).1
    String.mk (List.replicate dayLabelWidth.toNat ' ') ++ String.mk chars

/-- Pad a string on the right to `w` characters (lipgloss `Width(w)` on a
short left-aligned label). -/
def padRight (s : String) (w : Nat) : String :=
  s ++ String.mk (List.replicate (w - s.length) ' ')

/-- The `dayLabels` slice of `renderGrid`. -/
def dayLabels : List String := ["", "Mon", "", "Wed", "", "Fri", ""]

/-- `Graph.renderGrid` from the source: seven rows of day label plus 52
cells, joined by newlines. -/
def Graph.renderGrid (_g : Graph) (grid : Int → Int → Int) : String :=
  let rows := (List.range daysPerWeek.toNat).map fun day =>
    padRight (dayLabels.getD day "") dayLabelWidth.toNat ++
      String.join ((List.range weeksToDisplay.toNat).map fun week =>
        renderCell (grid (day : Int) (week : Int)))
  String.intercalate "\n" rows

/-- `Graph.renderTitle` from the source (bold/color styling external). -/
def Graph.renderTitle (g : Graph) : String := g.title

/-- `Graph.renderLegend` from the source (color styling external). -/
def Graph.renderLegend (_g : Graph) : String :=
  let cells := (List.range 5).map fun level =>
    let _color := getColorForLevel (level : Int)
    blockChar ++ " "
  String.mk (List.replicate dayLabelWidth.toNat ' ') ++
    String.join (["Less"] ++ cells ++ ["More"])

/-- `Graph.Render` from the source. -/
def Graph.Render (g : Graph) : String :=
  let grid := g.buildGrid
  let out := g.renderTitle ++ "\n\n" ++ g.renderMonthLabels ++ "\n" ++
    g.renderGrid grid
  if g.showLegend then out ++ "\n" ++ g.renderLegend ++ "\n" else out

/-- The full-width message of `renderWidthWarning`. -/
def fullWarningMessage : String :=
  "Increase terminal width to view contribution grid"

/-- The detail line `fmt.Sprintf("Need %d columns, have %d", minWidth,
currentWidth)` of `renderWidthWarning`. -/
def warningDetail (minWidth currentWidth : Int) : String :=
  "Need " ++ toString minWidth ++ " columns, have " ++ toString currentWidth

/-- `renderWidthWarning` from the source.  The rounded border, padding and
centering applied by lipgloss are external styling around the content; the
content itself is the message, and when the detail is non-empty the blank
line and detail joined below it (`lipgloss.JoinVertical`). -/
def renderWidthWarning (currentWidth minWidth : Int) : String :=
  let maxBoxWidth := currentWidth - 4
  let message := fullWarningMessage
  let detail := warningDetail minWidth currentWidth
  let pair :=
    if maxBoxWidth < (message.length : Int) then
      if maxBoxWidth < 30 then ("Terminal too narrow", "")
      else if maxBoxWidth < 50 then ("Increase width for graph", "")
      else (message, detail)
    else (message, detail)
  if pair.2 = "" then pair.1 else pair.1 ++ "\n\n" ++ pair.2

/-- `Graph.RenderResponsive` from the source. -/
def Graph.RenderResponsive (g : Graph) (terminalWidth : Int) : String :=
  if terminalWidth < minTerminalWidth then
    renderWidthWarning terminalWidth minTerminalWidth
  else g.Render

/-- Aggregate statistics (`Stats` in the source). -/
structure Stats where
  Total : Int
  ActiveDays : Int
  TotalDays : Int
  AverageDay : Int
  MaxDay : Int
deriving DecidableEq, Repr

/-- Body of the accumulation loop of `CalculateStats`. -/
def statsStep (s : Stats) (c : Contribution) : Stats :=
  { s with
    Total := s.Total + c.Count
    ActiveDays := if 0 < c.Count then s.ActiveDays + 1 else s.ActiveDays
    MaxDay := if s.MaxDay < c.Count then c.Count else s.MaxDay }

/-- `CalculateStats` from the source; the average uses Go's
truncated integer division. -/
def CalculateStats (contributions : List Contribution) : Stats :=
  let init : Stats :=
    { Total := 0, ActiveDays := 0, TotalDays := (contributions.length : Int)
      AverageDay := 0, MaxDay := 0 }
  let s := contributions.foldl statsStep init
  if 0 < s.TotalDays then { s with AverageDay := s.Total.tdiv s.TotalDays }
  else s

/-- The reverse scan of `calculateCurrentStreak`, one constructor per
iteration of `for i := len(contributions) - 1; i >= 0; i--` (the list
argument is the contribution list already reversed).  The three branches
are: expected date matched, contribution date strictly before the expected
date (with the one-time grace retry from today to yesterday), and
contribution date after the expected date (no branch in the source: the
loop just moves on). -/
def currentStreakLoop (today : Int) :
    List Contribution → Int → Nat → Nat
  | [], _, streak => streak
  | c :: rest, expectedDate, streak =>
    if c.Date = expectedDate then
      if 0 < c.Count then
        currentStreakLoop today rest (expectedDate - 1) (streak + 1)
      else streak
    else if c.Date < expectedDate then
      if streak = 0 ∧ expectedDate = today then
        if c.Date = today - 1 ∧ 0 < c.Count then
          currentStreakLoop today rest (today - 2) 1
        else streak
      else streak
    else currentStreakLoop today rest expectedDate streak

/-- `calculateCurrentStreak` from the source; `today` is
`time.Now()` truncated to a civil date. -/
def calculateCurrentStreak (today : Int)
    (contributions : List Contribution) : Nat :=
  if contributions.isEmpty then 0
  else currentStreakLoop today contributions.reverse today 0

/-- State of the `calculateLongestStreak` loop. -/
structure LongestState where
  current : Nat
  longest : Nat
  prevDate : Int
deriving DecidableEq, Repr

/-- Body of the `calculateLongestStreak` loop for one contribution. -/
def longestStep (st : LongestState) (c : Contribution) : LongestState :=
  let current :=
    if 0 < st.current ∧ c.Date ≠ st.prevDate + 1 then 0 else st.current
  if 0 < c.Count then
    { current := current + 1
      longest := max st.longest (current + 1)
      prevDate := c.Date }
  else
    { current := 0, longest := st.longest, prevDate := st.prevDate }

/-- `calculateLongestStreak` from the source (the zero value of the unused
initial `prevDate` is 0). -/
def calculateLongestStreak (contributions : List Contribution) : Nat :=
  if contributions.isEmpty then 0
  else (contributions.foldl longestStep ⟨0, 0, 0⟩).longest

/-- Time windows of the statistics view (`TimeWindow` in the source). -/
inductive TimeWindow | ThisWeek | ThisMonth | ThisYear
deriving DecidableEq, Repr

/-- The cutoff switch of `CalculatePeakCodingHour`
(`now.AddDate(0, 0, -k)` in hour units). -/
def windowCutoff (now : Int) : TimeWindow → Int
  | .ThisWeek => now - 7 * 24
  | .ThisMonth => now - 30 * 24
  | .ThisYear => now - 365 * 24

/-- The `hourCounts` map of `CalculatePeakCodingHour` as a function: how
many activities at or after the cutoff fall in hour bucket `h`.  A key
absent from the Go map reads as 0, as does any `h` outside 0..23 here. -/
def hourCount (cutoff : Int) (activities : List Activity) (h : Int) : Nat :=
  (activities.filter
    (fun a => decide (¬ a.Timestamp < cutoff ∧ a.Timestamp % 24 = h))).length

/-- `hourCounts` specialised to a window relative to `now`. -/
def windowHourCount (now : Int) (activities : List Activity)
    (window : TimeWindow) (h : Int) : Nat :=
  hourCount (windowCutoff now window) activities h

/-- The sorted key list of the `hourCounts` map: the hours 0..23 holding at
least one event, ascending (the source collects the map's keys and
bubble-sorts them). -/
def presentHours (now : Int) (activities : List Activity)
    (window : TimeWindow) : List Int :=
  ((List.range 24).map (fun n : Nat => (n : Int))).filter
    (fun h => decide (0 < windowHourCount now activities window h))

/-- The max-scan of `CalculatePeakCodingHour` over the sorted hour list,
state (`maxCount`, `peakHour`), strict improvement only. -/
def peakScan (counts : Int → Nat) :
    List Int → Nat → Int → Nat × Int
  | [], maxCount, peakHour => (maxCount, peakHour)
  | h :: rest, maxCount, peakHour =>
    if maxCount < counts h then peakScan counts rest (counts h) h
    else peakScan counts rest maxCount peakHour

/-- The (`maxCount`, `peakHour`) pair after the scan, from the initial
state (0, 0). -/
def peakPair (now : Int) (activities : List Activity)
    (window : TimeWindow) : Nat × Int :=
  peakScan (windowHourCount now activities window)
    (presentHours now activities window) 0 0

/-- Go `strings.ToLower`, modelled character-wise (the byte-position
implementation of `String.toLower` is irreducible in the kernel). -/
def toLowerStr (s : String) : String := String.mk (s.data.map Char.toLower)

/-- `formatHourRange` from the source (`end` is a Lean keyword, hence
`endH`). -/
def formatHourRange (start : Int) (startPeriod : String) (endH : Int)
    (endPeriod : String) : String :=
  let startPeriod := toLowerStr startPeriod
  let endPeriod := toLowerStr endPeriod
  if startPeriod = endPeriod then
    toString start ++ "-" ++ toString endH ++ endPeriod
  else
    toString start ++ startPeriod ++ "-" ++ toString endH ++ endPeriod

/-- The 12-hour formatting block of `CalculatePeakCodingHour` (lines
computing `displayStart`/`displayEnd` and the periods; `(peakHour+1) % 24`
is non-negative, so Go `%` agrees with `emod`). -/
def formatPeakLabel (peakHour : Int) : String :=
  let startHour := peakHour
  let endHour := (peakHour + 1) % 24
  let startPeriod := if 12 ≤ startHour then "PM" else "AM"
  let displayStart :=
    if 12 ≤ startHour then
      (if 12 < startHour then startHour - 12 else startHour)
    else startHour
  let displayStart := if displayStart = 0 then 12 else displayStart
  let endPeriod := if 12 ≤ endHour then "PM" else "AM"
  let displayEnd :=
    if 12 ≤ endHour then
      (if 12 < endHour then endHour - 12 else endHour)
    else endHour
  let displayEnd := if displayEnd = 0 then 12 else displayEnd
  formatHourRange displayStart startPeriod displayEnd endPeriod

/-- `CalculatePeakCodingHour` from the source, returning the label and the
hour distribution. -/
def CalculatePeakCodingHour (now : Int) (activities : List Activity)
    (window : TimeWindow) : String × (Int → Nat) :=
  let mp := peakPair now activities window
  let peakString := if mp.1 = 0 then "No data" else formatPeakLabel mp.2
  (peakString, windowHourCount now activities window)

/-! ### Statement-side definitions -/

/-- Length of the run of consecutive-date, positive-count entries at the
front of a reversed contribution list, counting down from date `d`; this
is the `n` of the streak claims read off the data. -/
def revRunLen : Int → List Contribution → Nat
  | _, [] => 0
  | d, c :: rest =>
    if c.Date = d ∧ 0 < c.Count then revRunLen (d - 1) rest + 1 else 0

/-- The `calculateLongestStreak` fold expressed over the reversed list
(newest entry outermost), used to relate it to the reverse scan of
`calculateCurrentStreak`. -/
def streakFoldR (r : List Contribution) (st : LongestState) : LongestState :=
  r.foldr (fun c acc => longestStep acc c) st

/-- Split a string into its newline-separated lines (a computable stand-in
for `String.splitOn "\n"`, whose byte-position implementation is
irreducible in the kernel). -/
def splitLinesAux : List Char → List Char → List String
  | [], acc => [String.mk acc.reverse]
  | c :: cs, acc =>
    if c = '\n' then String.mk acc.reverse :: splitLinesAux cs []
    else splitLinesAux cs (c :: acc)

/-- Lines of a string. -/
def linesOf (s : String) : List String := splitLinesAux s.data []

/-- Follows the spec's words: 12-hour display of an hour-of-day, "hour 0
displays as 12; hours 13–23 subtract 12". -/
def specDisplayHour12 (h : Int) : Int :=
  if h = 0 then 12 else if 13 ≤ h then h - 12 else h

/-- Follows the spec's words: meridiem of an hour-of-day with "hour 12 is
pm" and lowercase am/pm. -/
def specMeridiem (h : Int) : String := if 12 ≤ h then "pm" else "am"

/-- Follows the spec's words: the label for the range `h` to `(h+1) mod
24`, compressed when both endpoints share a meridiem. -/
def specHourRangeLabel (h : Int) : String :=
  let s := specDisplayHour12 h
  let e := specDisplayHour12 ((h + 1) % 24)
  let sm := specMeridiem h
  let em := specMeridiem ((h + 1) % 24)
  if sm = em then toString s ++ "-" ++ toString e ++ em
  else toString s ++ sm ++ "-" ++ toString e ++ em

/-! ### Helper lemmas -/

theorem fullWarningMessage_length : (fullWarningMessage.length : Int) = 49 := by
  decide

theorem warningDetail_ne_empty (minWidth currentWidth : Int) :
    warningDetail minWidth currentWidth ≠ "" := by
  intro h
  apply_fun String.length at h
  simp only [warningDetail, String.length_append] at h
  have h5 : ("Need ").length = 5 := by decide
  have h0 : ("" : String).length = 0 := by decide
  omega

theorem data_head_ne {s t : String} (h : s.data.head? ≠ t.data.head?) :
    s ≠ t := fun he => h (by rw [he])

theorem head_append_of_some {s t : String} {c : Char}
    (h : s.data.head? = some c) : (s ++ t).data.head? = some c := by
  rw [String.data_append, List.head?_append, h]; rfl

theorem render_head (l : List Contribution) :
    ((NewGraph l).Render).data.head? = some 'C' := by
  simp only [Graph.Render, Graph.renderTitle, NewGraph, if_true]
  repeat apply head_append_of_some
  decide

theorem warning_head (w m : Int) :
    (renderWidthWarning w m).data.head? = some 'I' ∨
      (renderWidthWarning w m).data.head? = some 'T' := by
  simp only [renderWidthWarning]
  split_ifs <;>
    first
      | exact Or.inl (show fullWarningMessage.data.head? = some 'I' by decide)
      | exact Or.inr
          (show ("Terminal too narrow").data.head? = some 'T' by decide)

theorem widthWarning_tier_narrow (w : Int) (h : w - 4 < 30) :
    renderWidthWarning w minTerminalWidth = "Terminal too narrow" := by
  simp only [renderWidthWarning, fullWarningMessage_length]
  rw [if_pos (show w - 4 < (49 : Int) by omega),
    if_pos (show w - 4 < (30 : Int) by omega)]
  decide

theorem widthWarning_tier_short (w : Int) (h30 : 30 ≤ w - 4)
    (h49 : w - 4 < 49) :
    renderWidthWarning w minTerminalWidth = "Increase width for graph" := by
  simp only [renderWidthWarning, fullWarningMessage_length]
  rw [if_pos (show w - 4 < (49 : Int) by omega),
    if_neg (show ¬ w - 4 < (30 : Int) by omega),
    if_pos (show w - 4 < (50 : Int) by omega)]
  decide

theorem widthWarning_tier_full (w : Int) (h49 : 49 ≤ w - 4) :
    renderWidthWarning w minTerminalWidth =
      fullWarningMessage ++ "\n\n" ++ warningDetail minTerminalWidth w := by
  simp only [renderWidthWarning, fullWarningMessage_length]
  rw [if_neg (show ¬ w - 4 < (49 : Int) by omega),
    if_neg (warningDetail_ne_empty minTerminalWidth w)]

/-! ### C4 — intensity classification -/

/-- C4: the classifier maps 0 to level 0, 1..3 to 1, 4..6 to 2, 7..9 to 3
and everything from 10 up to 4; it is monotone non-decreasing on
non-negative counts, with level 0 at 0 and level 4 at 10 and 1000. -/
theorem intensity_classification :
    (∀ c : Int, 0 ≤ c →
      (c = 0 → getContributionLevel c = 0) ∧
      (1 ≤ c ∧ c ≤ 3 → getContributionLevel c = 1) ∧
      (4 ≤ c ∧ c ≤ 6 → getContributionLevel c = 2) ∧
      (7 ≤ c ∧ c ≤ 9 → getContributionLevel c = 3) ∧
      (10 ≤ c → getContributionLevel c = 4)) ∧
    (∀ a b : Int, 0 ≤ a → a ≤ b →
      getContributionLevel a ≤ getContributionLevel b) ∧
    getContributionLevel 0 = 0 ∧ getContributionLevel 10 = 4 ∧
    getContributionLevel 1000 = 4 := by
  refine ⟨?_, ?_, by decide, by decide, by decide⟩
  · intro c hc
    refine ⟨?_, ?_, ?_, ?_, ?_⟩ <;>
      · intro h
        simp only [getContributionLevel]
        split_ifs <;> omega
  · intro a b ha hab
    simp only [getContributionLevel]
    split_ifs <;> omega

/-- Witness for C4 at concrete inputs. -/
theorem intensity_classification_witness :
    ((0 : Int) ≤ 2 ∧ (2 : Int) ≤ 7) ∧
      getContributionLevel 2 ≤ getContributionLevel 7 :=
  ⟨⟨by decide, by decide⟩,
    intensity_classification.2.1 2 7 (by decide) (by decide)⟩

/-! ### C9 — peak-hour range formatting -/

/-- C9: for every peak hour 0..23 the label built by the code equals the
label the spec describes, and the two example calls of `formatHourRange`
hold. -/
theorem peak_hour_range_formatting :
    (∀ h : Int, 0 ≤ h → h < 24 → formatPeakLabel h = specHourRangeLabel h) ∧
    formatHourRange 11 "AM" 12 "PM" = "11am-12pm" ∧
    formatHourRange 2 "PM" 3 "PM" = "2-3pm" := by
  refine ⟨?_, by decide, by decide⟩
  intro h h0 h24
  interval_cases h <;> decide

/-- Witness for C9 at hour 13. -/
theorem peak_hour_range_formatting_witness :
    ((0 : Int) ≤ 13 ∧ (13 : Int) < 24) ∧
      formatPeakLabel 13 = specHourRangeLabel 13 :=
  ⟨⟨by decide, by decide⟩,
    peak_hour_range_formatting.1 13 (by decide) (by decide)⟩

/-! ### C6 — width-warning message tiers -/

/-- C6 counterexample: at terminal width 50, which the claim's "otherwise"
tier (not below 50) says should get the full hint plus the numeric detail
line, the code produces the short hint with no detail. -/
theorem widthWarning_tiers_counterexample :
    renderWidthWarning 50 minTerminalWidth = "Increase width for graph" ∧
    renderWidthWarning 50 minTerminalWidth ≠
      fullWarningMessage ++ "\n\n" ++ warningDetail minTerminalWidth 50 ∧
    ¬ (50 : Int) < 50 := by decide

/-- C6 amended: for widths below 108 the message is selected by three
tiers of the box width `terminalWidth - 4` with thresholds 30 and 49 (the
full message's length): below 30 the "too narrow" message with no detail,
from 30 up to but excluding 49 the short hint with no detail, from 49 the
full hint plus the numeric detail line; and whenever the box is at least
as wide as the shortest message (19 columns) no line of the text exceeds
the box width. -/
theorem widthWarning_tiers_amended :
    ∀ w : Int, w < minTerminalWidth →
      ((w - 4 < 30 →
        renderWidthWarning w minTerminalWidth = "Terminal too narrow") ∧
       (30 ≤ w - 4 → w - 4 < 49 →
        renderWidthWarning w minTerminalWidth = "Increase width for graph") ∧
       (49 ≤ w - 4 →
        renderWidthWarning w minTerminalWidth =
          fullWarningMessage ++ "\n\n" ++ warningDetail minTerminalWidth w)) ∧
      (19 ≤ w - 4 →
        ∀ line ∈ linesOf (renderWidthWarning w minTerminalWidth),
          (line.length : Int) ≤ w - 4) := by
  intro w hw
  refine ⟨⟨widthWarning_tier_narrow w, widthWarning_tier_short w,
    widthWarning_tier_full w⟩, ?_⟩
  intro h19
  have hmin : minTerminalWidth = 108 := by decide
  rw [hmin] at hw
  have h23 : 23 ≤ w := by omega
  interval_cases w <;> decide

/-- Witness for C6 at terminal width 40 (box width 36: short hint). -/
theorem widthWarning_tiers_amended_witness :
    ((40 : Int) < minTerminalWidth ∧ (30 : Int) ≤ 40 - 4 ∧
      (40 : Int) - 4 < 49) ∧
    renderWidthWarning 40 minTerminalWidth = "Increase width for graph" :=
  ⟨⟨by decide, by decide, by decide⟩,
    (widthWarning_tiers_amended 40 (by decide)).1.2.1 (by decide) (by decide)⟩

/-! ### C5 — responsive rendering fallback -/

/-- C5: rendering is total (a Lean function); the warning box is returned
exactly when the width is below 108 = 4 + 52·2 (below: the result is the
warning and differs from the graph text; at or above: the result is the
graph text); at width 80 the result is the warning content with the
numeric detail "Need 108 columns, have 80". -/
theorem renderResponsive_fallback :
    (∀ (contributions : List Contribution) (terminalWidth : Int),
      (terminalWidth < minTerminalWidth →
        (NewGraph contributions).RenderResponsive terminalWidth =
          renderWidthWarning terminalWidth minTerminalWidth) ∧
      (minTerminalWidth ≤ terminalWidth →
        (NewGraph contributions).RenderResponsive terminalWidth =
          (NewGraph contributions).Render) ∧
      (terminalWidth < minTerminalWidth →
        (NewGraph contributions).RenderResponsive terminalWidth ≠
          (NewGraph contributions).Render)) ∧
    minTerminalWidth = dayLabelWidth + weeksToDisplay * cellWidth ∧
    minTerminalWidth = 108 ∧
    (∀ contributions : List Contribution,
      (NewGraph contributions).RenderResponsive 80 =
        fullWarningMessage ++ "\n\n" ++ "Need 108 columns, have 80") := by
  refine ⟨?_, rfl, by decide, ?_⟩
  · intro l w
    refine ⟨?_, ?_, ?_⟩
    · intro h
      simp only [Graph.RenderResponsive]
      rw [if_pos h]
    · intro h
      simp only [Graph.RenderResponsive]
      rw [if_neg (by omega)]
    · intro h
      simp only [Graph.RenderResponsive]
      rw [if_pos h]
      refine data_head_ne ?_
      rw [render_head l]
      rcases warning_head w minTerminalWidth with hh | hh <;> rw [hh] <;>
        decide
  · intro l
    simp only [Graph.RenderResponsive]
    rw [if_pos (by decide)]
    decide

/-- Witness for C5 at width 80. -/
theorem renderResponsive_fallback_witness :
    ((80 : Int) < minTerminalWidth) ∧
    (NewGraph []).RenderResponsive 80 =
      renderWidthWarning 80 minTerminalWidth :=
  ⟨by decide, ((renderResponsive_fallback.1 [] 80).1 (by decide))⟩

/-! ### C8 — empty and out-of-window inputs -/

/-- C8: empty contributions give zero total-days and zero average (no
division happens), the all-zero grid and zero streaks; activities all
strictly before the window cutoff give the "No data" sentinel and an
all-zero hour distribution. -/
theorem empty_inputs_zero_outputs :
    (CalculateStats []).TotalDays = 0 ∧
    (CalculateStats []).AverageDay = 0 ∧
    (∀ d w : Int, (NewGraph []).buildGrid d w = 0) ∧
    (∀ today : Int, calculateCurrentStreak today [] = 0) ∧
    calculateLongestStreak [] = 0 ∧
    (∀ (now : Int) (acts : List Activity) (window : TimeWindow),
      (∀ a ∈ acts, a.Timestamp < windowCutoff now window) →
      (CalculatePeakCodingHour now acts window).1 = "No data" ∧
      ∀ h : Int, (CalculatePeakCodingHour now acts window).2 h = 0) := by
  refine ⟨by decide, by decide, fun d w => rfl, fun t => rfl, by decide, ?_⟩
  intro now acts window hall
  have hcount : ∀ h : Int, windowHourCount now acts window h = 0 := by
    intro h
    simp only [windowHourCount, hourCount, List.length_eq_zero,
      List.filter_eq_nil_iff]
    intro a ha
    simp only [decide_eq_true_eq, not_and]
    intro hcon
    exact absurd (hall a ha) hcon
  have hpres : presentHours now acts window = [] := by
    simp only [presentHours, List.filter_eq_nil_iff]
    intro a ha
    simp [hcount]
  refine ⟨?_, fun h => hcount h⟩
  simp only [CalculatePeakCodingHour, peakPair, hpres, peakScan, if_true]

/-- Witness for C8's peak-hour part: a single event far before the
one-week cutoff. -/
theorem empty_inputs_zero_outputs_witness :
    (∀ a ∈ [Activity.mk "PushEvent" (-1000)],
        a.Timestamp < windowCutoff 0 TimeWindow.ThisWeek) ∧
    (CalculatePeakCodingHour 0 [Activity.mk "PushEvent" (-1000)]
        TimeWindow.ThisWeek).1 = "No data" :=
  ⟨by decide,
    (empty_inputs_zero_outputs.2.2.2.2.2 0 [Activity.mk "PushEvent" (-1000)]
      TimeWindow.ThisWeek (by decide)).1⟩

/-! ### C10 — aggregate statistics invariants -/

theorem statsStep_fold_inv :
    ∀ (l : List Contribution) (s : Stats) (n : Int),
      (∀ c ∈ l, 0 ≤ c.Count) →
      0 ≤ s.MaxDay → s.MaxDay ≤ s.Total → s.Total ≤ n * s.MaxDay →
      0 ≤ s.ActiveDays → s.ActiveDays ≤ n →
      0 ≤ (l.foldl statsStep s).MaxDay ∧
      (l.foldl statsStep s).MaxDay ≤ (l.foldl statsStep s).Total ∧
      (l.foldl statsStep s).Total ≤
        (n + l.length) * (l.foldl statsStep s).MaxDay ∧
      0 ≤ (l.foldl statsStep s).ActiveDays ∧
      (l.foldl statsStep s).ActiveDays ≤ n + l.length ∧
      (l.foldl statsStep s).TotalDays = s.TotalDays := by
  intro l
  induction l with
  | nil =>
    intro s n _ h1 h2 h3 h4 h5
    simpa using ⟨h1, h2, h3, h4, h5⟩
  | cons c t ih =>
    intro s n hpos h1 h2 h3 h4 h5
    have hc : 0 ≤ c.Count := hpos c (List.mem_cons_self c t)
    have hn : 0 ≤ n := le_trans h4 h5
    have e1 : (statsStep s c).MaxDay =
        if s.MaxDay < c.Count then c.Count else s.MaxDay := rfl
    have e2 : (statsStep s c).Total = s.Total + c.Count := rfl
    have e3 : (statsStep s c).ActiveDays =
        if 0 < c.Count then s.ActiveDays + 1 else s.ActiveDays := rfl
    have e4 : (statsStep s c).TotalDays = s.TotalDays := rfl
    have i1 : 0 ≤ (statsStep s c).MaxDay := by
      rw [e1]; split_ifs <;> omega
    have i2 : (statsStep s c).MaxDay ≤ (statsStep s c).Total := by
      rw [e1, e2]; split_ifs <;> omega
    have i3 : (statsStep s c).Total ≤ (n + 1) * (statsStep s c).MaxDay := by
      rw [e1, e2]
      split_ifs with hmx
      · have h6 : n * s.MaxDay ≤ n * c.Count :=
          mul_le_mul_of_nonneg_left hmx.le hn
        have h7 : (n + 1) * c.Count = n * c.Count + c.Count := by ring
        linarith
      · have h6 : (n + 1) * s.MaxDay = n * s.MaxDay + s.MaxDay := by ring
        have h7 : c.Count ≤ s.MaxDay := not_lt.mp hmx
        linarith
    have i4 : 0 ≤ (statsStep s c).ActiveDays := by
      rw [e3]; split_ifs <;> omega
    have i5 : (statsStep s c).ActiveDays ≤ n + 1 := by
      rw [e3]; split_ifs <;> omega
    obtain ⟨j1, j2, j3, j4, j5, j6⟩ :=
      ih (statsStep s c) (n + 1)
        (fun x hx => hpos x (List.mem_cons_of_mem c hx)) i1 i2 i3 i4 i5
    have hrw : n + (((c :: t).length : Nat) : Int) =
        (n + 1) + ((t.length : Nat) : Int) := by
      push_cast [List.length_cons]; ring
    refine ⟨j1, j2, ?_, j4, ?_, j6.trans e4⟩
    · rw [hrw]; exact j3
    · rw [hrw]; exact j5

/-- C10: with non-negative counts, the computed statistics satisfy
0 ≤ ActiveDays ≤ TotalDays, TotalDays is the sequence length,
0 ≤ AverageDay ≤ MaxDay and MaxDay ≤ Total. -/
theorem stats_aggregate_invariants :
    ∀ l : List Contribution, (∀ c ∈ l, 0 ≤ c.Count) →
      0 ≤ (CalculateStats l).ActiveDays ∧
      (CalculateStats l).ActiveDays ≤ (CalculateStats l).TotalDays ∧
      (CalculateStats l).TotalDays = (l.length : Int) ∧
      0 ≤ (CalculateStats l).AverageDay ∧
      (CalculateStats l).AverageDay ≤ (CalculateStats l).MaxDay ∧
      (CalculateStats l).MaxDay ≤ (CalculateStats l).Total := by
  intro l hpos
  by_cases hl : l = []
  · subst hl; exact by decide
  · obtain ⟨j1, j2, j3, j4, j5, j6⟩ := statsStep_fold_inv l
      ⟨0, 0, (l.length : Int), 0, 0⟩ 0 hpos (by simp) (by simp) (by simp)
      (by simp) (by simp)
    have hlpos : 0 < ((l.length : Nat) : Int) := by
      have := List.length_pos.mpr hl
      omega
    have hTD : (l.foldl statsStep ⟨0, 0, (l.length : Int), 0, 0⟩).TotalDays =
        ((l.length : Nat) : Int) := j6
    have hT0 : 0 ≤ (l.foldl statsStep ⟨0, 0, (l.length : Int), 0, 0⟩).Total :=
      le_trans j1 j2
    have hCS : CalculateStats l =
        { l.foldl statsStep ⟨0, 0, (l.length : Int), 0, 0⟩ with
          AverageDay :=
            (l.foldl statsStep ⟨0, 0, (l.length : Int), 0, 0⟩).Total.tdiv
              (l.foldl statsStep ⟨0, 0, (l.length : Int), 0, 0⟩).TotalDays } := by
      simp only [CalculateStats]
      rw [if_pos (by rw [hTD]; exact hlpos)]
    rw [hCS]
    have havg : (l.foldl statsStep ⟨0, 0, (l.length : Int), 0, 0⟩).Total.tdiv
        (l.foldl statsStep ⟨0, 0, (l.length : Int), 0, 0⟩).TotalDays =
        (l.foldl statsStep ⟨0, 0, (l.length : Int), 0, 0⟩).Total /
          ((l.length : Nat) : Int) := by
      rw [hTD, Int.tdiv_eq_ediv hT0 (le_of_lt hlpos)]
    refine ⟨j4, ?_, hTD, ?_, ?_, j2⟩
    · rw [hTD]
      simpa using j5
    · show 0 ≤ (l.foldl statsStep ⟨0, 0, (l.length : Int), 0, 0⟩).Total.tdiv
        (l.foldl statsStep ⟨0, 0, (l.length : Int), 0, 0⟩).TotalDays
      rw [havg]
      exact Int.ediv_nonneg hT0 (le_of_lt hlpos)
    · show (l.foldl statsStep ⟨0, 0, (l.length : Int), 0, 0⟩).Total.tdiv
        (l.foldl statsStep ⟨0, 0, (l.length : Int), 0, 0⟩).TotalDays ≤
        (l.foldl statsStep ⟨0, 0, (l.length : Int), 0, 0⟩).MaxDay
      rw [havg]
      have hbound : (l.foldl statsStep ⟨0, 0, (l.length : Int), 0, 0⟩).Total ≤
          ((l.length : Nat) : Int) *
            (l.foldl statsStep ⟨0, 0, (l.length : Int), 0, 0⟩).MaxDay := by
        simpa using j3
      calc (l.foldl statsStep ⟨0, 0, (l.length : Int), 0, 0⟩).Total /
            ((l.length : Nat) : Int) ≤
          ((l.length : Nat) : Int) *
            (l.foldl statsStep ⟨0, 0, (l.length : Int), 0, 0⟩).MaxDay /
            ((l.length : Nat) : Int) := Int.ediv_le_ediv hlpos hbound
        _ = (l.foldl statsStep ⟨0, 0, (l.length : Int), 0, 0⟩).MaxDay :=
          Int.mul_ediv_cancel_left _ (by omega)

/-- Witness for C10 on a small concrete list. -/
theorem stats_aggregate_invariants_witness :
    (∀ c ∈ [Contribution.mk 1 3, Contribution.mk 2 0], 0 ≤ c.Count) ∧
    (CalculateStats [Contribution.mk 1 3, Contribution.mk 2 0]).AverageDay ≤
      (CalculateStats [Contribution.mk 1 3, Contribution.mk 2 0]).MaxDay :=
  ⟨by decide,
    (stats_aggregate_invariants [Contribution.mk 1 3, Contribution.mk 2 0]
      (by decide)).2.2.2.2.1⟩

/-! ### Streak lemmas (C1, C2) -/

theorem longestStep_longest_le (st : LongestState) (c : Contribution) :
    st.longest ≤ (longestStep st c).longest := by
  simp only [longestStep]
  split_ifs <;> first | exact le_max_left _ _ | exact le_refl _

theorem streakFoldR_longest_le :
    ∀ (r : List Contribution) (st : LongestState),
      st.longest ≤ (streakFoldR r st).longest := by
  intro r
  induction r with
  | nil => exact fun st => le_refl _
  | cons c rest ih =>
    intro st
    exact le_trans (ih st) (longestStep_longest_le (streakFoldR rest st) c)

theorem streakFoldR_append (r1 r2 : List Contribution) (st : LongestState) :
    streakFoldR (r1 ++ r2) st = streakFoldR r1 (streakFoldR r2 st) := by
  simp only [streakFoldR, List.foldr_append]

theorem foldl_longestStep_eq :
    ∀ (l : List Contribution) (st : LongestState),
      l.foldl longestStep st = streakFoldR l.reverse st := by
  intro l
  induction l with
  | nil => exact fun st => rfl
  | cons c t ih =>
    intro st
    rw [List.foldl_cons, ih (longestStep st c), List.reverse_cons,
      streakFoldR_append]
    rfl

theorem revRunLen_fold :
    ∀ (r : List Contribution) (d : Int) (st : LongestState),
      0 < revRunLen d r →
      revRunLen d r ≤ (streakFoldR r st).current ∧
      (streakFoldR r st).prevDate = d ∧
      revRunLen d r ≤ (streakFoldR r st).longest := by
  intro r
  induction r with
  | nil => intro d st h; simp [revRunLen] at h
  | cons c rest ih =>
    intro d st h
    by_cases hc : c.Date = d ∧ 0 < c.Count
    · have hrw : revRunLen d (c :: rest) = revRunLen (d - 1) rest + 1 := by
        simp only [revRunLen, if_pos hc]
      have hstep : streakFoldR (c :: rest) st =
          longestStep (streakFoldR rest st) c := rfl
      by_cases hm : 0 < revRunLen (d - 1) rest
      · obtain ⟨ih1, ih2, ih3⟩ := ih (d - 1) st hm
        have hdate : c.Date = (streakFoldR rest st).prevDate + 1 := by
          rw [ih2]; omega
        have hstepeq : longestStep (streakFoldR rest st) c =
            { current := (streakFoldR rest st).current + 1
              longest := max (streakFoldR rest st).longest
                ((streakFoldR rest st).current + 1)
              prevDate := c.Date } := by
          simp only [longestStep]
          rw [if_neg (show ¬(0 < (streakFoldR rest st).current ∧
              c.Date ≠ (streakFoldR rest st).prevDate + 1) from
            fun hx => hx.2 hdate), if_pos hc.2]
        rw [hrw, hstep, hstepeq]
        refine ⟨?_, hc.1, ?_⟩
        · show revRunLen (d - 1) rest + 1 ≤ (streakFoldR rest st).current + 1
          omega
        · show revRunLen (d - 1) rest + 1 ≤
            max (streakFoldR rest st).longest ((streakFoldR rest st).current + 1)
          exact le_trans (by omega) (le_max_right _ _)
      · have hm0 : revRunLen (d - 1) rest = 0 := by omega
        obtain ⟨cur0, hstepeq⟩ :
            ∃ cur0 : Nat, longestStep (streakFoldR rest st) c =
              { current := cur0 + 1
                longest := max (streakFoldR rest st).longest (cur0 + 1)
                prevDate := c.Date } := by
          simp only [longestStep]
          rw [if_pos hc.2]
          exact ⟨_, rfl⟩
        rw [hrw, hm0, hstep, hstepeq]
        refine ⟨?_, hc.1, ?_⟩
        · show 0 + 1 ≤ cur0 + 1
          omega
        · show 0 + 1 ≤
            max (streakFoldR rest st).longest (cur0 + 1)
          exact le_trans (by omega) (le_max_right _ _)
    · have : revRunLen d (c :: rest) = 0 := by
        simp only [revRunLen, if_neg hc]
      omega

theorem currentStreakLoop_post :
    ∀ (today : Int) (r : List Contribution) (e : Int) (s : Nat), 1 ≤ s →
      List.Chain' (fun a b => b.Date < a.Date) r →
      (∀ c ∈ r.head?, c.Date ≤ e) →
      currentStreakLoop today r e s = s + revRunLen e r := by
  intro today r
  induction r with
  | nil => intro e s _ _ _; simp [currentStreakLoop, revRunLen]
  | cons c rest ih =>
    intro e s hs hch hhd
    have hce : c.Date ≤ e := hhd c (by simp)
    rw [List.chain'_cons'] at hch
    obtain ⟨hrel, hch'⟩ := hch
    rcases eq_or_ne c.Date e with h1 | h1
    · by_cases h2 : 0 < c.Count
      · rw [show currentStreakLoop today (c :: rest) e s =
            currentStreakLoop today rest (e - 1) (s + 1) from by
          simp only [currentStreakLoop]; rw [if_pos h1, if_pos h2]]
        rw [ih (e - 1) (s + 1) (by omega) hch'
          (fun x hx => by have := hrel x hx; omega)]
        simp only [revRunLen, if_pos (show c.Date = e ∧ 0 < c.Count from ⟨h1, h2⟩)]
        omega
      · rw [show currentStreakLoop today (c :: rest) e s = s from by
          simp only [currentStreakLoop]; rw [if_pos h1, if_neg h2]]
        simp only [revRunLen,
          if_neg (show ¬(c.Date = e ∧ 0 < c.Count) from fun hx => h2 hx.2)]
        omega
    · have hlt : c.Date < e := lt_of_le_of_ne hce h1
      rw [show currentStreakLoop today (c :: rest) e s = s from by
        simp only [currentStreakLoop]
        rw [if_neg h1, if_pos hlt,
          if_neg (show ¬(s = 0 ∧ e = today) from fun hx => by omega)]]
      simp only [revRunLen,
        if_neg (show ¬(c.Date = e ∧ 0 < c.Count) from fun hx => h1 hx.1)]
      omega

theorem currentStreakLoop_init :
    ∀ (today : Int) (r : List Contribution),
      List.Chain' (fun a b => b.Date < a.Date) r →
      ∃ r' d, r' <:+ r ∧ currentStreakLoop today r today 0 = revRunLen d r' := by
  intro today r
  induction r with
  | nil => exact fun _ => ⟨[], today, List.nil_suffix, rfl⟩
  | cons c rest ih =>
    intro hch
    rw [List.chain'_cons'] at hch
    obtain ⟨hrel, hch'⟩ := hch
    rcases eq_or_ne c.Date today with h1 | h1
    · by_cases h2 : 0 < c.Count
      · refine ⟨c :: rest, today, List.suffix_refl _, ?_⟩
        rw [show currentStreakLoop today (c :: rest) today 0 =
            currentStreakLoop today rest (today - 1) (0 + 1) from by
          simp only [currentStreakLoop]; rw [if_pos h1, if_pos h2]]
        rw [currentStreakLoop_post today rest (today - 1) (0 + 1) (by omega)
          hch' (fun x hx => by have := hrel x hx; omega)]
        simp only [revRunLen,
          if_pos (show c.Date = today ∧ 0 < c.Count from ⟨h1, h2⟩)]
        omega
      · refine ⟨[], today, List.nil_suffix, ?_⟩
        simp only [currentStreakLoop]
        rw [if_pos h1, if_neg h2]
        simp [revRunLen]
    · rcases lt_or_gt_of_ne h1 with hlt | hgt
      · by_cases h4 : c.Date = today - 1 ∧ 0 < c.Count
        · refine ⟨c :: rest, today - 1, List.suffix_refl _, ?_⟩
          rw [show currentStreakLoop today (c :: rest) today 0 =
              currentStreakLoop today rest (today - 2) 1 from by
            simp only [currentStreakLoop]
            rw [if_neg h1, if_pos hlt, if_pos (by simp), if_pos h4]]
          rw [currentStreakLoop_post today rest (today - 2) 1 (by omega) hch'
            (fun x hx => by have := hrel x hx; omega)]
          simp only [revRunLen, if_pos h4]
          rw [show today - 1 - 1 = today - 2 from by ring]
          omega
        · refine ⟨[], today, List.nil_suffix, ?_⟩
          simp only [currentStreakLoop]
          rw [if_neg h1, if_pos hlt, if_pos (by simp), if_neg h4]
          simp [revRunLen]
      · obtain ⟨r', d, hsuf, heq⟩ := ih hch'
        refine ⟨r', d, hsuf.trans (List.suffix_cons c rest), ?_⟩
        rw [show currentStreakLoop today (c :: rest) today 0 =
            currentStreakLoop today rest today 0 from by
          simp only [currentStreakLoop]
          rw [if_neg h1, if_neg (show ¬ c.Date < today from by omega)]]
        exact heq

/-! ### C2 — longest streak dominates current streak -/

/-- C2: on a sequence of strictly increasing dates (non-decreasing with
one entry per covered day) the longest streak is at least the current
streak, for any reference day `today`. -/
theorem longestStreak_ge_currentStreak :
    ∀ (today : Int) (l : List Contribution),
      List.Pairwise (fun a b => a.Date < b.Date) l →
      calculateCurrentStreak today l ≤ calculateLongestStreak l := by
  intro today l hpw
  rcases eq_or_ne l [] with rfl | hl
  · simp [calculateCurrentStreak, calculateLongestStreak]
  · obtain ⟨c0, t0, rfl⟩ := List.exists_cons_of_ne_nil hl
    have hch : List.Chain' (fun a b => b.Date < a.Date) (c0 :: t0).reverse := by
      rw [List.chain'_reverse]
      exact hpw.chain'
    obtain ⟨r', d, hsuf, heq⟩ := currentStreakLoop_init today (c0 :: t0).reverse hch
    have hcur : calculateCurrentStreak today (c0 :: t0) = revRunLen d r' := by
      simp only [calculateCurrentStreak, List.isEmpty_cons, Bool.false_eq_true,
        if_false]
      exact heq
    have hlong : calculateLongestStreak (c0 :: t0) =
        (streakFoldR (c0 :: t0).reverse ⟨0, 0, 0⟩).longest := by
      simp only [calculateLongestStreak, List.isEmpty_cons, Bool.false_eq_true,
        if_false]
      rw [foldl_longestStep_eq]
    rw [hcur, hlong]
    rcases Nat.eq_zero_or_pos (revRunLen d r') with h0 | hpos
    · omega
    · obtain ⟨t1, ht1⟩ := hsuf
      rw [← ht1, streakFoldR_append]
      exact le_trans (revRunLen_fold r' d ⟨0, 0, 0⟩ hpos).2.2
        (streakFoldR_longest_le t1 _)

/-- Witness for C2 on a two-day run ending today. -/
theorem longestStreak_ge_currentStreak_witness :
    List.Pairwise (fun a b => a.Date < b.Date)
        [Contribution.mk 99 1, Contribution.mk 100 2] ∧
    calculateCurrentStreak 100 [Contribution.mk 99 1, Contribution.mk 100 2] ≤
      calculateLongestStreak [Contribution.mk 99 1, Contribution.mk 100 2] :=
  ⟨by decide, longestStreak_ge_currentStreak 100 _ (by decide)⟩

/-! ### C1 — the grace rule of the current streak -/

/-- C1 counterexample: the sequence covering yesterday (count 1) and today
(count 0) makes the claimed grace rule predict a streak of 1, but the code
hits today's zero-count entry on its first check and returns 0. -/
theorem currentStreak_grace_counterexample :
    calculateCurrentStreak 100 [Contribution.mk 99 1, Contribution.mk 100 0]
        = 0 ∧
    calculateCurrentStreak 100 [Contribution.mk 99 1, Contribution.mk 100 0]
        ≠ 1 := by decide

/-- C1 amended: the grace retry fires only when the sequence has no entry
for today.  If the most recent entry is dated yesterday, the current
streak is the length of the run of consecutive positive-count entries
ending yesterday (the `n` of the claim); if the most recent entry is dated
today with count 0, the scan stops at once and the streak is 0. -/
theorem currentStreak_grace_amended :
    ∀ (today : Int) (l : List Contribution) (h : l ≠ []),
      List.Pairwise (fun a b => a.Date < b.Date) l →
      ((l.getLast h).Date = today - 1 →
        calculateCurrentStreak today l = revRunLen (today - 1) l.reverse) ∧
      ((l.getLast h).Date = today → (l.getLast h).Count = 0 →
        calculateCurrentStreak today l = 0) := by
  intro today l h hpw
  have hne : l.reverse ≠ [] := by simp [h]
  obtain ⟨c, rest, hrev⟩ := List.exists_cons_of_ne_nil hne
  have hlast : l.getLast h = c := by
    have hh := List.head?_reverse l
    rw [hrev, List.getLast?_eq_getLast l h] at hh
    exact (Option.some_inj.mp hh).symm
  have hch : List.Chain' (fun a b => b.Date < a.Date) l.reverse := by
    rw [List.chain'_reverse]
    exact hpw.chain'
  rw [hrev, List.chain'_cons'] at hch
  obtain ⟨hrel, hch'⟩ := hch
  have hemp : l.isEmpty = false := by
    cases l with
    | nil => exact absurd rfl h
    | cons a t => rfl
  have hunfold : calculateCurrentStreak today l =
      currentStreakLoop today (c :: rest) today 0 := by
    simp only [calculateCurrentStreak, hemp, Bool.false_eq_true, if_false,
      hrev]
  constructor
  · intro hd
    rw [hlast] at hd
    rw [hunfold, hrev]
    by_cases h2 : 0 < c.Count
    · rw [show currentStreakLoop today (c :: rest) today 0 =
          currentStreakLoop today rest (today - 2) 1 from by
        simp only [currentStreakLoop]
        rw [if_neg (show ¬ c.Date = today by omega),
          if_pos (show c.Date < today by omega), if_pos (by simp),
          if_pos ⟨hd, h2⟩]]
      rw [currentStreakLoop_post today rest (today - 2) 1 (by omega) hch'
        (fun x hx => by have := hrel x hx; omega)]
      simp only [revRunLen,
        if_pos (show c.Date = today - 1 ∧ 0 < c.Count from ⟨hd, h2⟩)]
      rw [show today - 1 - 1 = today - 2 from by ring]
      omega
    · rw [show currentStreakLoop today (c :: rest) today 0 = 0 from by
        simp only [currentStreakLoop]
        rw [if_neg (show ¬ c.Date = today by omega),
          if_pos (show c.Date < today by omega), if_pos (by simp),
          if_neg (show ¬(c.Date = today - 1 ∧ 0 < c.Count) from
            fun hx => h2 hx.2)]]
      simp only [revRunLen,
        if_neg (show ¬(c.Date = today - 1 ∧ 0 < c.Count) from
          fun hx => h2 hx.2)]
  · intro hd hcnt
    rw [hlast] at hd hcnt
    rw [hunfold]
    simp only [currentStreakLoop]
    rw [if_pos hd, if_neg (show ¬ 0 < c.Count by omega)]

/-- Witness for C1's amended grace rule: two positive days ending
yesterday, no entry for today, current streak 2. -/
theorem currentStreak_grace_amended_witness :
    ([Contribution.mk 98 2, Contribution.mk 99 1] ≠ ([] : List Contribution)) ∧
    calculateCurrentStreak 100 [Contribution.mk 98 2, Contribution.mk 99 1] =
      revRunLen (100 - 1)
        ([Contribution.mk 98 2, Contribution.mk 99 1].reverse) ∧
    calculateCurrentStreak 100 [Contribution.mk 98 2, Contribution.mk 99 1]
        = 2 :=
  ⟨by decide,
    (currentStreak_grace_amended 100 [Contribution.mk 98 2, Contribution.mk 99 1]
      (by decide) (by decide)).1 (by decide),
    by decide⟩

/-! ### Grid lemmas (C3) -/

theorem weekday_nonneg (d : Int) : 0 ≤ weekday d :=
  Int.emod_nonneg d (by decide)

theorem weekday_lt_seven (d : Int) : weekday d < 7 :=
  Int.emod_lt_of_pos d (by decide)

theorem buildGrid_eq (l : List Contribution) :
    (NewGraph l).buildGrid =
      l.foldl (gridStep (gridAnchor l)) (fun _ _ => 0) := by
  cases l <;> rfl

theorem gridStep_write (a : Int) (g : Int → Int → Int) (c : Contribution)
    (h : 0 ≤ (c.Date - a).tdiv 7 ∧ (c.Date - a).tdiv 7 < weeksToDisplay) :
    gridStep a g c =
      gridWrite g (weekday c.Date) ((c.Date - a).tdiv 7) c.Count := by
  simp only [gridStep]
  rw [if_pos ⟨h.1, h.2, weekday_nonneg c.Date, weekday_lt_seven c.Date⟩]

theorem gridStep_skip (a : Int) (g : Int → Int → Int) (c : Contribution)
    (h : ¬(0 ≤ (c.Date - a).tdiv 7 ∧ (c.Date - a).tdiv 7 < weeksToDisplay)) :
    gridStep a g c = g := by
  simp only [gridStep]
  rw [if_neg (fun hx => h ⟨hx.1, hx.2.1⟩)]

theorem foldl_gridStep_untouched :
    ∀ (s : List Contribution) (g : Int → Int → Int) (a dow wk : Int),
      (∀ x ∈ s,
        (0 ≤ (x.Date - a).tdiv 7 ∧ (x.Date - a).tdiv 7 < weeksToDisplay) →
        ¬(dow = weekday x.Date ∧ wk = (x.Date - a).tdiv 7)) →
      (s.foldl (gridStep a) g) dow wk = g dow wk := by
  intro s
  induction s with
  | nil => intro g a dow wk _; rfl
  | cons x t ih =>
    intro g a dow wk hs
    rw [List.foldl_cons,
      ih (gridStep a g x) a dow wk (fun y hy => hs y (List.mem_cons_of_mem x hy))]
    by_cases hw : 0 ≤ (x.Date - a).tdiv 7 ∧ (x.Date - a).tdiv 7 < weeksToDisplay
    · rw [gridStep_write a g x hw]
      simp only [gridWrite]
      rw [if_neg (hs x (List.mem_cons_self x t) hw)]
    · rw [gridStep_skip a g x hw]

theorem gridAnchor_le (l : List Contribution)
    (hl : List.Pairwise (fun a b => a.Date < b.Date) l) :
    ∀ c ∈ l, gridAnchor l ≤ c.Date := by
  cases l with
  | nil => intro c hc; simp at hc
  | cons h t =>
    intro c hc
    have h1 : gridAnchor (h :: t) ≤ h.Date := by
      simp only [gridAnchor, sundayOnOrBefore]
      have := Int.emod_nonneg h.Date (show (7 : Int) ≠ 0 by decide)
      omega
    rcases List.mem_cons.mp hc with rfl | hct
    · exact h1
    · have := (List.pairwise_cons.mp hl).1 c hct
      omega

/-! ### C3 — grid round-trip with windowing -/

/-- C3: on a strictly increasing sequence of dates, every contribution
whose week index relative to the anchor (the Sunday on or before the first
date) lies in [0, 52) is read back from the built grid at its weekday/week
cell with exactly its count; appending a contribution outside the window
leaves the grid unchanged; the empty sequence yields the all-zero grid. -/
theorem buildGrid_roundtrip_windowing :
    (∀ l : List Contribution,
      List.Pairwise (fun a b => a.Date < b.Date) l →
      ∀ c ∈ l, 0 ≤ (c.Date - gridAnchor l).tdiv 7 →
        (c.Date - gridAnchor l).tdiv 7 < 52 →
        (NewGraph l).buildGrid (weekday c.Date)
          ((c.Date - gridAnchor l).tdiv 7) = c.Count) ∧
    (∀ (l : List Contribution) (c : Contribution), l ≠ [] →
      ¬(0 ≤ (c.Date - gridAnchor l).tdiv 7 ∧
        (c.Date - gridAnchor l).tdiv 7 < 52) →
      (NewGraph (l ++ [c])).buildGrid = (NewGraph l).buildGrid) ∧
    (∀ d w : Int, (NewGraph []).buildGrid d w = 0) := by
  refine ⟨?_, ?_, fun d w => rfl⟩
  · intro l hpw c hc hw0 hw1
    obtain ⟨p, s, rfl⟩ := List.append_of_mem hc
    rw [buildGrid_eq, List.foldl_append, List.foldl_cons]
    have hcmem : c ∈ p ++ c :: s :=
      List.mem_append.mpr (Or.inr (List.mem_cons_self c s))
    have hca : gridAnchor (p ++ c :: s) ≤ c.Date :=
      gridAnchor_le (p ++ c :: s) hpw c hcmem
    rw [foldl_gridStep_untouched s _ (gridAnchor (p ++ c :: s))
      (weekday c.Date) ((c.Date - gridAnchor (p ++ c :: s)).tdiv 7) ?_]
    · rw [gridStep_write (gridAnchor (p ++ c :: s)) _ c ⟨hw0, hw1⟩]
      simp [gridWrite]
    · intro x hx hxw
      rintro ⟨hdow, hwk⟩
      have hgt : c.Date < x.Date := by
        have hsub : List.Pairwise (fun a b => a.Date < b.Date) (c :: s) :=
          hpw.sublist (List.sublist_append_right p (c :: s))
        exact (List.pairwise_cons.mp hsub).1 x hx
      have hxa : gridAnchor (p ++ c :: s) ≤ x.Date := by omega
      have e1 : (c.Date - gridAnchor (p ++ c :: s)).tdiv 7 =
          (c.Date - gridAnchor (p ++ c :: s)) / 7 :=
        Int.tdiv_eq_ediv (by omega) (by decide)
      have e2 : (x.Date - gridAnchor (p ++ c :: s)).tdiv 7 =
          (x.Date - gridAnchor (p ++ c :: s)) / 7 :=
        Int.tdiv_eq_ediv (by omega) (by decide)
      simp only [weekday] at hdow
      rw [e1, e2] at hwk
      omega
  · intro l c hl hout
    rw [buildGrid_eq, buildGrid_eq]
    have hanch : gridAnchor (l ++ [c]) = gridAnchor l := by
      obtain ⟨h0, t0, rfl⟩ := List.exists_cons_of_ne_nil hl
      rfl
    rw [hanch, List.foldl_append, List.foldl_cons, List.foldl_nil]
    rw [gridStep_skip (gridAnchor l) _ c hout]

/-- Witness for C3's round-trip on two in-window contributions. -/
theorem buildGrid_roundtrip_windowing_witness :
    List.Pairwise (fun a b => a.Date < b.Date)
        [Contribution.mk 3 5, Contribution.mk 10 7] ∧
    (NewGraph [Contribution.mk 3 5, Contribution.mk 10 7]).buildGrid
        (weekday (Contribution.mk 10 7).Date)
        (((Contribution.mk 10 7).Date -
          gridAnchor [Contribution.mk 3 5, Contribution.mk 10 7]).tdiv 7)
      = 7 :=
  ⟨by decide,
    buildGrid_roundtrip_windowing.1
      [Contribution.mk 3 5, Contribution.mk 10 7] (by decide)
      (Contribution.mk 10 7) (by decide) (by decide) (by decide)⟩

/-! ### Peak-hour scan lemmas (C7) -/

theorem peakScan_fst_ge (counts : Int → Nat) :
    ∀ (hl : List Int) (m : Nat) (p : Int), m ≤ (peakScan counts hl m p).1 := by
  intro hl
  induction hl with
  | nil => intro m p; exact le_refl m
  | cons x t ih =>
    intro m p
    simp only [peakScan]
    split_ifs with hc
    · exact le_trans (le_of_lt hc) (ih (counts x) x)
    · exact ih m p

theorem peakScan_mem_le (counts : Int → Nat) :
    ∀ (hl : List Int) (m : Nat) (p : Int) (h : Int), h ∈ hl →
      counts h ≤ (peakScan counts hl m p).1 := by
  intro hl
  induction hl with
  | nil => intro m p h hh; simp at hh
  | cons x t ih =>
    intro m p h hh
    simp only [peakScan]
    rcases List.mem_cons.mp hh with rfl | ht
    · split_ifs with hc
      · exact peakScan_fst_ge counts t (counts h) h
      · exact le_trans (not_lt.mp hc) (peakScan_fst_ge counts t m p)
    · split_ifs with hc
      · exact ih (counts x) x h ht
      · exact ih m p h ht

theorem peakScan_result (counts : Int → Nat) :
    ∀ (hl : List Int) (m : Nat) (p : Int),
      peakScan counts hl m p = (m, p) ∨
      ((peakScan counts hl m p).2 ∈ hl ∧
        counts (peakScan counts hl m p).2 = (peakScan counts hl m p).1) := by
  intro hl
  induction hl with
  | nil => intro m p; exact Or.inl rfl
  | cons x t ih =>
    intro m p
    simp only [peakScan]
    split_ifs with hc
    · rcases ih (counts x) x with heq | hmem
      · refine Or.inr ?_
        rw [heq]
        exact ⟨List.mem_cons_self x t, rfl⟩
      · exact Or.inr ⟨List.mem_cons_of_mem x hmem.1, hmem.2⟩
    · rcases ih m p with heq | hmem
      · exact Or.inl heq
      · exact Or.inr ⟨List.mem_cons_of_mem x hmem.1, hmem.2⟩

theorem peakScan_strict (counts : Int → Nat) :
    ∀ (hl : List Int) (m : Nat) (p : Int),
      (peakScan counts hl m p).2 ≠ p → m < (peakScan counts hl m p).1 := by
  intro hl
  induction hl with
  | nil => intro m p hne; exact absurd rfl hne
  | cons x t ih =>
    intro m p
    by_cases hc : m < counts x
    · rw [show peakScan counts (x :: t) m p = peakScan counts t (counts x) x
        from by simp only [peakScan, if_pos hc]]
      exact fun _ => lt_of_lt_of_le hc (peakScan_fst_ge counts t (counts x) x)
    · rw [show peakScan counts (x :: t) m p = peakScan counts t m p
        from by simp only [peakScan, if_neg hc]]
      exact ih m p

theorem peakScan_tie_min (counts : Int → Nat) :
    ∀ (hl : List Int) (m : Nat) (p : Int),
      List.Pairwise (· < ·) hl → (∀ h ∈ hl, p ≤ h) →
      ∀ h ∈ hl, counts h = (peakScan counts hl m p).1 →
        (peakScan counts hl m p).2 ≤ h := by
  intro hl
  induction hl with
  | nil => intro m p _ _ h hh; simp at hh
  | cons x t ih =>
    intro m p hpw hp h hh hcnt
    obtain ⟨hxlt, hpw'⟩ := List.pairwise_cons.mp hpw
    by_cases hc : m < counts x
    · have heq : peakScan counts (x :: t) m p = peakScan counts t (counts x) x := by
        simp only [peakScan, if_pos hc]
      rw [heq] at hcnt ⊢
      rcases List.mem_cons.mp hh with rfl | ht
      · rcases eq_or_ne (peakScan counts t (counts h) h).2 h with he | hne
        · exact le_of_eq he
        · have := peakScan_strict counts t (counts h) h hne
          omega
      · exact ih (counts x) x hpw' (fun y hy => le_of_lt (hxlt y hy)) h ht hcnt
    · have heq : peakScan counts (x :: t) m p = peakScan counts t m p := by
        simp only [peakScan, if_neg hc]
      rw [heq] at hcnt ⊢
      rcases List.mem_cons.mp hh with rfl | ht
      · rcases eq_or_ne (peakScan counts t m p).2 p with he | hne
        · rw [he]
          exact hp h (List.mem_cons_self h t)
        · have h1 := peakScan_strict counts t m p hne
          omega
      · exact ih m p hpw' (fun y hy => hp y (List.mem_cons_of_mem x hy)) h ht
          hcnt

theorem mem_presentHours (now : Int) (acts : List Activity) (w : TimeWindow)
    (h : Int) :
    h ∈ presentHours now acts w ↔
      0 ≤ h ∧ h < 24 ∧ 0 < windowHourCount now acts w h := by
  simp only [presentHours, List.mem_filter, List.mem_map, List.mem_range,
    decide_eq_true_eq]
  constructor
  · rintro ⟨⟨n, hn, hfn⟩, hc⟩
    have hfn2 : (n : Int) = h := hfn
    subst hfn2
    exact ⟨by omega, by omega, hc⟩
  · rintro ⟨h0, h24, hc⟩
    refine ⟨⟨h.toNat, by omega, ?_⟩, hc⟩
    show ((h.toNat : Nat) : Int) = h
    exact Int.toNat_of_nonneg h0

theorem presentHours_pairwise (now : Int) (acts : List Activity)
    (w : TimeWindow) :
    List.Pairwise (· < ·) (presentHours now acts w) :=
by
  refine List.Pairwise.filter _ ?_
  refine List.Pairwise.map _ ?_ (List.pairwise_lt_range 24)
  intro a b hab
  simpa using hab

theorem peakScan_spec (counts : Int → Nat) (hl : List Int)
    (hpw : List.Pairwise (· < ·) hl) (hnn : ∀ h ∈ hl, (0 : Int) ≤ h)
    (hlpos : ∀ h ∈ hl, 0 < counts h)
    (hmemc : ∀ h : Int, 0 ≤ h → h < 24 → 0 < counts h → h ∈ hl) :
    (∀ h : Int, 0 ≤ h → h < 24 →
      counts h ≤ counts (peakScan counts hl 0 0).2) ∧
    (∀ h : Int, 0 ≤ h → h < 24 →
      counts h = counts (peakScan counts hl 0 0).2 →
      (peakScan counts hl 0 0).2 ≤ h) := by
  have hres := peakScan_result counts hl 0 0
  constructor
  · intro h h0 h24
    rcases Nat.eq_zero_or_pos (counts h) with hz | hpos
    · rw [hz]; exact Nat.zero_le _
    · have hmem := hmemc h h0 h24 hpos
      have h1 := peakScan_mem_le counts hl 0 0 h hmem
      rcases hres with heq | ⟨hm, hcnt⟩
      · rw [heq] at h1
        simp at h1
        omega
      · rw [hcnt]; exact h1
  · intro h h0 h24 hceq
    rcases hres with heq | ⟨hm, hcnt⟩
    · rw [heq]
      exact h0
    · rcases Nat.eq_zero_or_pos (counts h) with hz | hpos
      · have h2 := hlpos _ hm
        omega
      · exact peakScan_tie_min counts hl 0 0 hpw (fun y hy => hnn y hy) h
          (hmemc h h0 h24 hpos) (hceq.trans hcnt)

/-! ### C7 — peak-hour tie-break determinism -/

/-- C7: the hour selected by the scan carries the maximum in-window count
over all hour buckets 0..23; among buckets whose count ties that maximum
the numerically smallest hour is selected; and the whole computation is
invariant under permutation of the activity list (order independence). -/
theorem peakHour_tiebreak_deterministic :
    ∀ (now : Int) (acts : List Activity) (window : TimeWindow),
      (∀ h : Int, 0 ≤ h → h < 24 →
        windowHourCount now acts window h ≤
          windowHourCount now acts window (peakPair now acts window).2) ∧
      (∀ h : Int, 0 ≤ h → h < 24 →
        windowHourCount now acts window h =
          windowHourCount now acts window (peakPair now acts window).2 →
        (peakPair now acts window).2 ≤ h) ∧
      (∀ acts' : List Activity, acts.Perm acts' →
        CalculatePeakCodingHour now acts window =
          CalculatePeakCodingHour now acts' window) := by
  intro now acts window
  have hspec := peakScan_spec (windowHourCount now acts window)
    (presentHours now acts window)
    (presentHours_pairwise now acts window)
    (fun h hh => ((mem_presentHours now acts window h).mp hh).1)
    (fun h hh => ((mem_presentHours now acts window h).mp hh).2.2)
    (fun h h0 h24 hpos =>
      (mem_presentHours now acts window h).mpr ⟨h0, h24, hpos⟩)
  refine ⟨hspec.1, hspec.2, ?_⟩
  intro acts' hperm
  have hc : windowHourCount now acts window =
      windowHourCount now acts' window := by
    funext h
    simp only [windowHourCount, hourCount]
    exact List.Perm.length_eq (List.Perm.filter _ hperm)
  simp only [CalculatePeakCodingHour, peakPair, presentHours, hc]

/-- Witness for C7 on three concrete events (hours 12, 12 and 14): hour 14
has no more events than the selected peak hour. -/
theorem peakHour_tiebreak_deterministic_witness :
    ((0 : Int) ≤ 14 ∧ (14 : Int) < 24) ∧
    windowHourCount 1000
        [Activity.mk "a" 900, Activity.mk "b" 924, Activity.mk "c" 950]
        TimeWindow.ThisWeek 14 ≤
      windowHourCount 1000
        [Activity.mk "a" 900, Activity.mk "b" 924, Activity.mk "c" 950]
        TimeWindow.ThisWeek
        (peakPair 1000
          [Activity.mk "a" 900, Activity.mk "b" 924, Activity.mk "c" 950]
          TimeWindow.ThisWeek).2 :=
  ⟨⟨by decide, by decide⟩,
    (peakHour_tiebreak_deterministic 1000
      [Activity.mk "a" 900, Activity.mk "b" 924, Activity.mk "c" 950]
      TimeWindow.ThisWeek).1 14 (by decide) (by decide)⟩

end GitTUI
